import Mathlib

/-!
Verification development for an event-driven e-commerce order/payment system
(Node.js microservices: orders, payments, a Kafka messaging wrapper).

The JavaScript source is shallowly embedded: each route handler or library
function becomes a pure Lean function over an explicit database/event-log
state.  Relational tables are lists of row structures; a SQL transaction is
modelled by building the new state and returning the original state on every
ROLLBACK path.  A DECIMAL(10,2) money value is represented by its exact
integer number of cents; a separate binary64 rounding model (namespace Fp)
captures the places where IEEE floating point matters.
-/

namespace Ecomm

/-! ## Orders service data model
Tables from services/orders migrations 001: orders, order_items; the
products table from the products service migration (id, name, price
DECIMAL(10,2), stock INTEGER). -/

/-- Order.status values allowed by the CHECK constraint on orders.status. -/
inductive OrderStatus where
  | pending
  | confirmed
  | shipped
  | delivered
  | cancelled
deriving DecidableEq, Repr

/-- A row of the products table (the columns read by the order handler:
SELECT id, name, price, stock FROM products). -/
structure Product where
  id : Nat
  name : String
  price : Int
  stock : Int
deriving DecidableEq, Repr

/-- A row of the orders table (columns the handler writes/reads). -/
structure OrderRow where
  id : Nat
  user_id : Nat
  total : Int
  status : OrderStatus
  notes : Option String
deriving DecidableEq, Repr

/-- A row of the order_items table. -/
structure OrderItemRow where
  id : Nat
  order_id : Nat
  product_id : Nat
  quantity : Int
  unit_price : Int
  subtotal : Int
deriving DecidableEq, Repr

/-- One element of the request body items array: { product_id, quantity }. -/
structure OrderItemReq where
  product_id : Nat
  quantity : Int
deriving DecidableEq, Repr

/-- The orders-service database state visible to the handlers. -/
structure OrdersDb where
  products : List Product
  orders : List OrderRow
  order_items : List OrderItemRow
  nextOrderId : Nat
  nextItemId : Nat
deriving DecidableEq, Repr

/-- Result of POST /orders: either a 400 with an error string, or 201 with
the created order and its item rows. -/
inductive CreateOrderResult where
  | badRequest (error : String)
  | created (order : OrderRow) (items : List OrderItemRow)
deriving DecidableEq, Repr

/-- The per-item validation loop (orders.js lines 23-30): a falsy
product_id or quantity gives one message, a non-positive quantity the
other.  JS falsiness of a number is being 0 here. -/
def firstItemError : List OrderItemReq → Option String
  | [] => none
  | i :: rest =>
    if i.product_id = 0 ∨ i.quantity = 0 then
      some "Each item must have product_id and quantity"
    else if i.quantity ≤ 0 then
      some "Item quantity must be greater than 0"
    else firstItemError rest

/-- The insufficient-stock message built at orders.js line 81. -/
def insufficientStockMsg (name : String) (available : Int) (requested : Int) : String :=
  "Insufficient stock for product " ++ name ++ ". Available: " ++ toString available ++
    ", Requested: " ++ toString requested

/-- An item row under construction (the orderItems array of the handler,
before order ids are assigned). -/
structure PendingItem where
  product_id : Nat
  quantity : Int
  unit_price : Int
  subtotal : Int
deriving DecidableEq, Repr

/-- The check-and-price loop (orders.js lines 71-95): for each item, look
the product up in the map built from the SELECT result (the primary key
makes the match unique), fail on a missing product or insufficient stock,
otherwise record quantity, captured unit price and subtotal. -/
def buildItems (sel : List Product) : List OrderItemReq → Except String (List PendingItem)
  | [] => .ok []
  | i :: rest =>
    match sel.find? (fun p => p.id == i.product_id) with
    | none => .error ("Product " ++ toString i.product_id ++ " not found")
    | some p =>
      if p.stock < i.quantity then
        .error (insufficientStockMsg p.name p.stock i.quantity)
      else
        match buildItems sel rest with
        | .error e => .error e
        | .ok rest2 =>
          .ok ({ product_id := i.product_id, quantity := i.quantity,
                 unit_price := p.price, subtotal := p.price * i.quantity } :: rest2)

/-- UPDATE products SET stock = stock - qty WHERE id = pid (one loop step of
orders.js lines 122-125). -/
def applyStockDec (ps : List Product) (pid : Nat) (qty : Int) : List Product :=
  ps.map (fun p => if p.id = pid then { p with stock := p.stock - qty } else p)

/-- The stock-decrement loop over all order items. -/
def decStocks (ps : List Product) (pending : List PendingItem) : List Product :=
  pending.foldl (fun acc it => applyStockDec acc it.product_id it.quantity) ps

/-- INSERT INTO order_items, assigning serial ids. -/
def mkItemRows (orderId : Nat) : Nat → List PendingItem → List OrderItemRow
  | _, [] => []
  | nid, it :: rest =>
    { id := nid, order_id := orderId, product_id := it.product_id,
      quantity := it.quantity, unit_price := it.unit_price, subtotal := it.subtotal }
      :: mkItemRows orderId (nid + 1) rest

/-- POST /orders (orders.js lines 12-162).  Money is computed here in exact
integer cents, the exact-decimal reading of the JS arithmetic; the binary64
behaviour of the same lines is modelled separately by jsLineSubtotal and
jsOrderTotal below.  The best-effort gRPC user lookup (lines 41-48) cannot
abort creation and is omitted.  Every ROLLBACK path returns the original
state unchanged. -/
def createOrder (db : OrdersDb) (userId : Nat) (items : List OrderItemReq)
    (notes : Option String) : CreateOrderResult × OrdersDb :=
  if items.isEmpty then
    (.badRequest "Items array is required and cannot be empty", db)
  else
    match firstItemError items with
    | some e => (.badRequest e, db)
    | none =>
      let productIds := items.map (·.product_id)
      -- SELECT id, name, price, stock FROM products WHERE id IN (...)
      let sel := db.products.filter (fun p => productIds.contains p.id)
      if sel.length ≠ productIds.length then
        (.badRequest "One or more products not found", db)
      else
        match buildItems sel items with
        | .error e => (.badRequest e, db)
        | .ok pending =>
          let total := (pending.map (·.subtotal)).foldl (· + ·) 0
          let order : OrderRow :=
            { id := db.nextOrderId, user_id := userId, total := total,
              status := .pending, notes := notes }
          let itemRows := mkItemRows order.id db.nextItemId pending
          (.created order itemRows,
            { products := decStocks db.products pending,
              orders := db.orders ++ [order],
              order_items := db.order_items ++ itemRows,
              nextOrderId := db.nextOrderId + 1,
              nextItemId := db.nextItemId + pending.length })

/-- Whether the handler committed (201). -/
def CreateOrderResult.isCreated : CreateOrderResult → Bool
  | .created _ _ => true
  | .badRequest _ => false

/-! ## PUT /orders/:id/status -/

/-- Result of PUT /orders/:id/status. -/
inductive UpdateStatusResult where
  | forbidden
  | badRequest (error : String)
  | notFound
  | ok (order : OrderRow)
deriving DecidableEq, Repr

/-- The validStatuses membership test of orders.js line 257-258: a request
string passes exactly when it is one of the five status literals. -/
def parseStatus : String → Option OrderStatus
  | "pending" => some .pending
  | "confirmed" => some .confirmed
  | "shipped" => some .shipped
  | "delivered" => some .delivered
  | "cancelled" => some .cancelled
  | _ => none

/-- PUT /orders/:id/status (orders.js lines 248-297).  After the admin check
and the membership check of the requested status string, the handler runs an
unconditional UPDATE ... WHERE id = orderId; there is no comparison with the
current status.  The order.updated publication carries no state change and
is omitted. -/
def updateOrderStatus (db : OrdersDb) (role : String) (statusReq : Option String)
    (orderId : Nat) : UpdateStatusResult × OrdersDb :=
  if role ≠ "admin" then (.forbidden, db)
  else
    match statusReq with
    | none =>
      (.badRequest "Status must be one of: pending, confirmed, shipped, delivered, cancelled", db)
    | some s =>
      match parseStatus s with
      | none =>
        (.badRequest "Status must be one of: pending, confirmed, shipped, delivered, cancelled", db)
      | some st =>
        let updated := db.orders.map (fun o => if o.id = orderId then { o with status := st } else o)
        match updated.filter (fun o => o.id == orderId) with
        | [] => (.notFound, db)
        | o :: _ => (.ok o, { db with orders := updated })

/-! ## Payments service data model
Table from services/payments migration 001_create_payments_table. -/

/-- payments.status values allowed by the CHECK constraint. -/
inductive PaymentStatus where
  | pending
  | processing
  | succeeded
  | failed
deriving DecidableEq, Repr

/-- A row of the payments table. -/
structure PaymentRow where
  id : Nat
  order_id : Nat
  user_id : Nat
  amount : Int
  transaction_id : Option String
  status : PaymentStatus
  failure_reason : Option String
deriving DecidableEq, Repr

/-- The status CHECK constraint of the payments DDL. -/
def paymentStatusAllowed (s : PaymentStatus) : Bool :=
  [PaymentStatus.pending, .processing, .succeeded, .failed].contains s

/-- The table-level invariants the payments DDL enforces:
  id SERIAL PRIMARY KEY                -> ids pairwise distinct;
  transaction_id VARCHAR(100) UNIQUE   -> non-null transaction ids distinct;
  status CHECK (...)                   -> every status in the allowed set.
order_id, user_id, amount are NOT NULL (non-optional field types); order_id
carries only the plain index idx_payments_order_id, which is not a
uniqueness constraint. -/
def paymentsTableOk (t : List PaymentRow) : Prop :=
  (t.map (·.id)).Nodup ∧
    (t.filterMap (·.transaction_id)).Nodup ∧
    ∀ p ∈ t, paymentStatusAllowed p.status

instance (t : List PaymentRow) : Decidable (paymentsTableOk t) := by
  unfold paymentsTableOk; infer_instance

/-- A published Kafka event, restricted to the payload fields the payment
processor emits. -/
structure Event where
  topic : String
  key : String
  transaction_id : Option String
  order_id : Nat
  user_id : Nat
  amount : Int
  reason : Option String
deriving DecidableEq, Repr

/-- The payments-service state: the payments table plus the log of events
published so far. -/
structure PaymentsDb where
  payments : List PaymentRow
  events : List Event
  nextPaymentId : Nat
deriving DecidableEq, Repr

/-- The value processPayment returns to its caller. -/
structure PaymentResult where
  success : Bool
  payment_id : Nat
  transaction_id : Option String
  status : PaymentStatus
  reason : Option String
deriving DecidableEq, Repr

/-- The payment.attempted payload (payment-processor.js lines 45-54). -/
def attemptedEvent (orderId userId : Nat) (amount : Int) : Event :=
  { topic := "payment.attempted", key := toString orderId, transaction_id := none,
    order_id := orderId, user_id := userId, amount := amount, reason := none }

/-- The transaction id generated at payment-processor.js line 63
(TXN-Date.now()-orderId); the clock reading is an explicit argument. -/
def mkTxnId (now orderId : Nat) : String :=
  "TXN-" ++ toString now ++ "-" ++ toString orderId

/-- The idempotency SELECT of payment-processor.js lines 17-20, taking
rows[0] of SELECT * FROM payments WHERE order_id = orderId. -/
def findPayment (db : PaymentsDb) (orderId : Nat) : Option PaymentRow :=
  db.payments.find? (fun p => p.order_id == orderId)

/-- The terminal-outcome column values written by the UPDATE of
payment-processor.js lines 69-74 and 102-107. -/
def outcomeRow (p : PaymentRow) (st : PaymentStatus) (txn : String)
    (reason : Option String) : PaymentRow :=
  { p with status := st, transaction_id := some txn, failure_reason := reason }

/-- UPDATE payments SET ... WHERE id = paymentId with the terminal outcome
(payment-processor.js lines 69-74 and 102-107). -/
def setOutcome (rows : List PaymentRow) (paymentId : Nat) (st : PaymentStatus)
    (txn : String) (reason : Option String) : List PaymentRow :=
  rows.map (fun p => if p.id = paymentId then outcomeRow p st txn reason else p)

/-- processPayment(orderId, userId, amount) (payment-processor.js lines
9-137).  The two sources of nondeterminism are explicit arguments:
draw models Math.floor(Math.random() * FAILURE_RATE), a natural below
failureRate, and now models Date.now().  The short-circuit branch returns
with ROLLBACK (state unchanged); otherwise the row is inserted in
processing status, payment.attempted is published, the outcome decided by
draw = 0 is written, the transaction commits and exactly one terminal
event is published. -/
def processPayment (draw now : Nat) (db : PaymentsDb) (orderId userId : Nat)
    (amount : Int) : PaymentResult × PaymentsDb :=
  match findPayment db orderId with
  | some payment =>
    ({ success := payment.status == .succeeded, payment_id := payment.id,
       transaction_id := payment.transaction_id, status := payment.status,
       reason := none }, db)
  | none =>
    let payment : PaymentRow :=
      { id := db.nextPaymentId, order_id := orderId, user_id := userId,
        amount := amount, transaction_id := none, status := .processing,
        failure_reason := none }
    let rows1 := db.payments ++ [payment]
    let ev1 := db.events ++ [attemptedEvent orderId userId amount]
    let shouldFail := draw == 0
    let txn := mkTxnId now orderId
    if shouldFail then
      let reason := "Simulated payment failure"
      let rows2 := setOutcome rows1 payment.id .failed txn (some reason)
      let failEv : Event :=
        { topic := "payment.failed", key := toString orderId, transaction_id := some txn,
          order_id := orderId, user_id := userId, amount := amount,
          reason := some reason }
      ({ success := false, payment_id := payment.id, transaction_id := some txn,
         status := .failed, reason := some reason },
       { payments := rows2, events := ev1 ++ [failEv],
         nextPaymentId := db.nextPaymentId + 1 })
    else
      let rows2 := setOutcome rows1 payment.id .succeeded txn none
      let okEv : Event :=
        { topic := "payment.succeeded", key := toString orderId, transaction_id := some txn,
          order_id := orderId, user_id := userId, amount := amount, reason := none }
      ({ success := true, payment_id := payment.id, transaction_id := some txn,
         status := .succeeded, reason := none },
       { payments := rows2, events := ev1 ++ [okEv],
         nextPaymentId := db.nextPaymentId + 1 })

/-- Sequential repetition of processPayment for the same order with varying
random draws and clock readings, collecting the returned statuses. -/
def processPaymentRuns (db : PaymentsDb) (orderId userId : Nat) (amount : Int) :
    List (Nat × Nat) → List PaymentStatus × PaymentsDb
  | [] => ([], db)
  | (draw, now) :: rest =>
    let (r, db1) := processPayment draw now db orderId userId amount
    let (sts, db2) := processPaymentRuns db1 orderId userId amount rest
    (r.status :: sts, db2)

/-- The check-then-insert prefix of processPayment in isolation, as one
interleavable step: the INSERT of the processing row (payment-processor.js
lines 35-40).  Used to model two concurrent calls that both passed the
existence check before either inserted. -/
def insertProcessing (db : PaymentsDb) (orderId userId : Nat) (amount : Int) :
    PaymentRow × PaymentsDb :=
  let payment : PaymentRow :=
    { id := db.nextPaymentId, order_id := orderId, user_id := userId,
      amount := amount, transaction_id := none, status := .processing,
      failure_reason := none }
  (payment, { db with payments := db.payments ++ [payment],
                      nextPaymentId := db.nextPaymentId + 1 })

/-! ## Messaging substrate (the kafka wrapper library)
Embedded from the wrapper version that has topic auto-provisioning:
publish, ensureTopicExists, subscribeWithRetry, subscribe. -/

namespace Kafka

/-- The error classes the retry logic distinguishes: the first three are
the substrings tested at subscribeWithRetry (does not host this
topic-partition, UnknownTopicOrPartition, LeaderNotAvailable); anything
else is a non-topic error. -/
inductive KErrorKind where
  | notHostTopicPartition
  | unknownTopicOrPartition
  | leaderNotAvailable
  | other (msg : String)
deriving DecidableEq, Repr

/-- The isTopicError test of subscribeWithRetry. -/
def isTopicError : KErrorKind → Bool
  | .notHostTopicPartition => true
  | .unknownTopicOrPartition => true
  | .leaderNotAvailable => true
  | .other _ => false

/-- Observable broker-side effects of the wrapper functions. -/
inductive Action where
  | listTopics
  | createTopic (numPartitions : Nat) (retentionMs : Nat)
  | consumerSubscribe
  | sleep (ms : Nat)
  | producerSend
deriving DecidableEq, Repr

/-- The backoff of subscribeWithRetry:
Math.min(1000 * Math.pow(2, retryCount), 10000). -/
def backoffDelay (retryCount : Nat) : Nat :=
  min (1000 * 2 ^ retryCount) 10000

/-- ensureTopicExists: listTopics, then createTopics (1 partition,
retention.ms 604800000) only when the topic is not listed; every error in
this block is caught and only logged, so the caller proceeds regardless. -/
def ensureTopicActions (topicListed : Bool) : List Action :=
  Action.listTopics :: (if topicListed then [] else [Action.createTopic 1 604800000])

/-- What subscribe returns to its caller. -/
inductive SubscribeOutcome where
  | running                 -- consumer.run started; the consumer is returned
  | softNull                -- null returned after exhausting retries on topic errors
  | raised (e : KErrorKind) -- a non-topic error is rethrown
deriving DecidableEq, Repr

/-- subscribeWithRetry.  The environment is explicit: topicListed k tells
whether the topic is already listed when attempt k runs ensureTopicExists,
attemptError k is the error (if any) thrown by the connect/subscribe/run of
attempt k.  left is maxRetries - retryCount, so the guard
retryCount < maxRetries of the source is left > 0; the call below starts at
retryCount = 0 with maxRetries = 3.  Returns the outcome, the backoff
delays slept, and the broker actions performed. -/
def subscribeGo (topicListed : Nat → Bool) (attemptError : Nat → Option KErrorKind) :
    Nat → Nat → SubscribeOutcome × List Nat × List Action
  | left, k =>
    let acts := ensureTopicActions (topicListed k) ++ [Action.consumerSubscribe]
    match attemptError k with
    | none => (.running, [], acts)
    | some e =>
      if isTopicError e then
        match left with
        | 0 => (.softNull, [], acts)
        | left' + 1 =>
          let d := backoffDelay k
          let rest := subscribeGo topicListed attemptError left' (k + 1)
          (rest.1, d :: rest.2.1, acts ++ Action.sleep d :: rest.2.2)
      else (.raised e, [], acts)

/-- subscribe(topic, groupId, handler) = subscribeWithRetry with
retryCount = 0 and maxRetries = 3. -/
def subscribe (topicListed : Nat → Bool) (attemptError : Nat → Option KErrorKind) :
    SubscribeOutcome × List Nat × List Action :=
  subscribeGo topicListed attemptError 3 0

/-- What publish returns to its caller. -/
inductive PublishOutcome where
  | acked
  | raised (e : KErrorKind)
deriving DecidableEq, Repr

/-- publish(topic, messages): getProducer then producer.send, nothing else —
no ensureTopicExists, no retry, no sleep, no catch; a send error propagates
to the caller.  sendError is the error (if any) the broker send throws. -/
def publish (sendError : Option KErrorKind) : PublishOutcome × List Action :=
  match sendError with
  | none => (.acked, [Action.producerSend])
  | some e => (.raised e, [Action.producerSend])

/-! ### Consumer delivery loop and offsets -/

/-- Outcome of one JS async callback: normal return or a thrown error. -/
inductive JsOutcome (E : Type) where
  | ok
  | thrown (e : E)
deriving DecidableEq, Repr

/-- The eachMessage wrapper subscribeWithRetry installs around the
registered handler: the handler runs inside try/catch, a thrown error is
logged and not rethrown (the catch block only logs), so eachMessage always
returns normally. -/
def eachMessageWrapper {M E : Type} (handler : M → JsOutcome E) (m : M) : JsOutcome E :=
  match handler m with
  | .ok => .ok
  | .thrown _ => .ok

/-- Offset state of one partition of a consumer group. -/
structure ConsumerState where
  offset : Nat        -- next offset to fetch
  committed : Nat     -- highest committed offset
  crashedLoop : Bool  -- whether the run loop has stopped
deriving DecidableEq, Repr

/-- One fetch-and-process step of the kafkajs runner, modelled from the
kafkajs contract: when eachMessage returns normally the offset is resolved
and committed and the loop proceeds; when eachMessage throws, the offset is
not resolved, so the same message is fetched again (redelivered), and the
runner restarts the loop rather than killing the process.  Returns the new
state and the message delivered in this step, if any. -/
def runStep {M E : Type} (wrapper : M → JsOutcome E) (log : List M)
    (s : ConsumerState) : ConsumerState × Option M :=
  if s.crashedLoop then (s, none)
  else
    match log.get? s.offset with
    | none => (s, none)
    | some m =>
      match wrapper m with
      | .ok => ({ s with offset := s.offset + 1, committed := s.offset + 1 }, some m)
      | .thrown _ => (s, some m)

/-- n runner steps, collecting every delivery (redeliveries included). -/
def runSteps {M E : Type} (wrapper : M → JsOutcome E) (log : List M) :
    Nat → ConsumerState → ConsumerState × List M
  | 0, s => (s, [])
  | n + 1, s =>
    let (s1, d) := runStep wrapper log s
    let (s2, ds) := runSteps wrapper log n s1
    (s2, d.toList ++ ds)

end Kafka

/-! ## Binary64 model of the JS number arithmetic on money
The services parse DECIMAL(10,2) column values with parseFloat and combine
them with JS number arithmetic (orders.js lines 85-87, and the parseFloat
calls in the event payloads).  JS numbers are IEEE binary64; each operation
rounds its exact result to 53 significant bits, to nearest, ties to even.
The model below implements that rounding over explicit
numerator/denominator pairs, valid for the normal range (no overflow or
subnormals arise at the magnitudes a DECIMAL(10,2) column can hold).
Elsewhere in this development a DECIMAL(10,2) amount is represented by its
exact integer number of cents; here a value of c cents enters the JS world
as the double nearest c/100. -/

namespace Fp

/-- An exact rational as an explicit numerator/denominator pair (the
denominator is positive for every fraction built below); kept unreduced so
that every operation is plain integer arithmetic. -/
structure Frac where
  num : Int
  den : Nat
deriving DecidableEq, Repr

/-- Value equality of fractions, by cross multiplication. -/
def Frac.eqv (x y : Frac) : Prop :=
  x.num * (y.den : Int) = y.num * (x.den : Int)

instance (x y : Frac) : Decidable (Frac.eqv x y) := by
  unfold Frac.eqv; infer_instance

/-- Exact product. -/
def Frac.mul (x y : Frac) : Frac := ⟨x.num * y.num, x.den * y.den⟩

/-- Exact sum. -/
def Frac.add (x y : Frac) : Frac :=
  ⟨x.num * (y.den : Int) + y.num * (x.den : Int), x.den * y.den⟩

/-- Floor of the base-2 logarithm of a positive natural, by structural
recursion on a fuel argument (so that it evaluates by plain reduction);
128 units of fuel cover every value below 2^128, far beyond the magnitudes
arising from DECIMAL(10,2) amounts and 53-bit significands. -/
def log2Fuel : Nat → Nat → Nat
  | 0, _ => 0
  | fuel + 1, n => if 2 ≤ n then log2Fuel fuel (n / 2) + 1 else 0

/-- Floor of the base-2 logarithm of a natural. -/
def log2 (n : Nat) : Nat := log2Fuel 128 n

/-- Floor of the base-2 logarithm of a/b, for positive a and b.  For
b at most a the floor equals log2 of the integer quotient; for a < b it is
-l when a/b is exactly 2^(-l) and -(l+1) otherwise, where l is the floor
log of b/a. -/
def floorLog2 (a b : Nat) : Int :=
  if b ≤ a then (log2 (a / b) : Int)
  else
    let l := log2 (b / a)
    if a * 2 ^ l = b then -(l : Int) else -(l : Int) - 1

/-- Integer division of N by positive D with round to nearest, ties to
even. -/
def rndiv (N : Int) (D : Nat) : Int :=
  let f := Int.fdiv N (D : Int)
  let r := N - f * (D : Int)
  if 2 * r < (D : Int) then f
  else if (D : Int) < 2 * r then f + 1
  else if f % 2 = 0 then f else f + 1

/-- Binary64 rounding of an exact rational in the normal range: the nearest
(ties to even) value m * 2^e with a 53-bit significand m, where
e = floor(log2 of the absolute value) - 52. -/
def round (x : Frac) : Frac :=
  if x.num = 0 then ⟨0, 1⟩
  else
    let a := x.num.natAbs
    let e : Int := floorLog2 a x.den - 52
    let m : Int :=
      if 0 ≤ e then rndiv (a : Int) (x.den * 2 ^ e.toNat)
      else rndiv ((a : Int) * 2 ^ (-e).toNat) x.den
    let sign : Int := if x.num < 0 then -1 else 1
    if 0 ≤ e then ⟨sign * m * 2 ^ e.toNat, 1⟩
    else ⟨sign * m, 2 ^ (-e).toNat⟩

/-- JS multiplication of two already-rounded doubles. -/
def jsMul (x y : Frac) : Frac := round (x.mul y)

/-- JS addition of two already-rounded doubles. -/
def jsAdd (x y : Frac) : Frac := round (x.add y)

/-- parseFloat applied to the decimal text of a DECIMAL(10,2) value of c
cents: the double nearest c/100. -/
def ofCents (c : Int) : Frac := round ⟨c, 100⟩

/-- A request-body integer (an item quantity) as a double; integers of this
magnitude are exactly representable. -/
def ofInt (n : Int) : Frac := ⟨n, 1⟩

end Fp

/-- Lines 85-86 of the order handler under JS number semantics:
unitPrice = parseFloat(product.price), subtotal = unitPrice * quantity,
for a stored price of priceCents cents. -/
def jsLineSubtotal (priceCents : Int) (quantity : Int) : Fp.Frac :=
  Fp.jsMul (Fp.ofCents priceCents) (Fp.ofInt quantity)

/-- Line 87 of the order handler under JS number semantics: total starts at
0 and accumulates total += subtotal. -/
def jsOrderTotal (subtotals : List Fp.Frac) : Fp.Frac :=
  subtotals.foldl Fp.jsAdd ⟨0, 1⟩

/-- Rounding of a non-negative value to a DECIMAL(10,2) column, as integer
cents: PostgreSQL numeric(10,2) rounds to 2 fractional digits, half away
from zero — half up for the non-negative amounts at hand.  The number of
cents stored is floor(x * 100 + 1/2) = floor((200 num + den) / (2 den)). -/
def decimal2RoundCents (x : Fp.Frac) : Int :=
  Int.fdiv (200 * x.num + (x.den : Int)) (2 * (x.den : Int))

/-! ## Specification helpers and concrete fixtures -/

/-- Total quantity a request asks for a given product id, over the
(product id, quantity) pairs of the items. -/
def requestedQty (pairs : List (Nat × Int)) (pid : Nat) : Int :=
  ((pairs.filter (fun x => x.1 = pid)).map (·.2)).sum

/-- The (product id, quantity) projection of a request item. -/
def OrderItemReq.pq (i : OrderItemReq) : Nat × Int := (i.product_id, i.quantity)

/-- The (product id, quantity) projection of a pending item row. -/
def PendingItem.pq (it : PendingItem) : Nat × Int := (it.product_id, it.quantity)

/-- Scenario fixture: product 1 (Widget, price 29.99 = 2999 cents) with
stock 10. -/
def ordersDbS1 : OrdersDb :=
  { products := [⟨1, "Widget", 2999, 10⟩], orders := [], order_items := [],
    nextOrderId := 1, nextItemId := 1 }

/-- Scenario fixture: the same product with stock 1. -/
def ordersDbS2 : OrdersDb :=
  { products := [⟨1, "Widget", 2999, 1⟩], orders := [], order_items := [],
    nextOrderId := 1, nextItemId := 1 }

/-- Fixture: one order already in the terminal status delivered. -/
def ordersDbDelivered : OrdersDb :=
  { products := [], orders := [⟨1, 7, 5998, .delivered, none⟩], order_items := [],
    nextOrderId := 2, nextItemId := 1 }

/-- Fixture: the payments service with an empty payments table. -/
def emptyPaymentsDb : PaymentsDb :=
  { payments := [], events := [], nextPaymentId := 1 }

/-- Fixture: two payment rows for the same order id 5 with distinct primary
keys and distinct transaction ids. -/
def dupOrderPayments : List PaymentRow :=
  [⟨1, 5, 9, 10000, some "TXN-1-5", .succeeded, none⟩,
   ⟨2, 5, 9, 10000, some "TXN-2-5", .failed, some "Simulated payment failure"⟩]

/-- Fixture: a payments table holding one payment stuck in processing
status for order 5 (as after a crash between insert and outcome update). -/
def processingPaymentsDb : PaymentsDb :=
  { payments := [⟨1, 5, 9, 10000, none, .processing, none⟩], events := [],
    nextPaymentId := 2 }

/-- Fixture: a one-message partition log for the consumer loop. -/
def oneMessageLog : List String := ["order-created-42"]

/-- Fixture: a registered handler that always throws (for example the
payments order.created handler hitting a database error). -/
def throwingHandler : String → Kafka.JsOutcome String :=
  fun _ => .thrown "database connection lost"

/-! ## Theorems -/

/-- C6 counterexample: the order handler computes money with parseFloat and
JS number arithmetic, not fixed-point decimals.  For product price 0.10
(a DECIMAL(10,2) value) and quantity 3, the computed line subtotal — and
hence the single-line order total — differs from the exact decimal 0.30:
floating-point rounding is introduced by the computation, contrary to the
claim. -/
theorem money_float_rounding_cex :
    ¬ Fp.Frac.eqv (jsLineSubtotal 10 3) ⟨30, 100⟩ ∧
      ¬ Fp.Frac.eqv (jsOrderTotal [jsLineSubtotal 10 3]) ⟨30, 100⟩ := by
  decide

/-- C6 amended: monetary amounts are stored in DECIMAL(10,2) columns but
computed in the services as binary64 floating point; the computation
introduces rounding (0.10 times 3 evaluates to 1351079888211149/2^52, the
double 0.30000000000000004, not to 0.30), and the persisted cents are exact
only because the column rounds to two decimals on storage (30 cents here,
and 59.98 dollars for the scenario-1 total 29.99 times 2). -/
theorem money_float_computation_decimal_storage :
    Fp.Frac.eqv (jsLineSubtotal 10 3) ⟨1351079888211149, 2 ^ 52⟩ ∧
      ¬ Fp.Frac.eqv (jsLineSubtotal 10 3) ⟨30, 100⟩ ∧
      decimal2RoundCents (jsLineSubtotal 10 3) = 30 ∧
      decimal2RoundCents (jsOrderTotal [jsLineSubtotal 2999 2]) = 5998 := by
  decide

/-- C4 counterexample: the payments schema does not make Payment.order_id
unique — only transaction_id carries a UNIQUE constraint and order_id a
plain index — so a table with two rows for order 5 satisfies every schema
invariant; moreover two concurrent processPayment calls that both run the
existence check against the same (empty) table see no row, and their two
inserts produce exactly such a duplicate table. -/
theorem payments_schema_duplicate_order_id_cex :
    paymentsTableOk dupOrderPayments ∧
      (dupOrderPayments.filter (fun p => p.order_id == 5)).length = 2 ∧
      findPayment emptyPaymentsDb 5 = none ∧
      (((insertProcessing (insertProcessing emptyPaymentsDb 5 9 10000).2
          5 9 10000).2).payments.filter (fun p => p.order_id == 5)).length = 2 ∧
      paymentsTableOk ((insertProcessing (insertProcessing emptyPaymentsDb 5 9 10000).2
          5 9 10000).2).payments := by
  refine ⟨by decide, by decide, by decide, by decide, by decide⟩

/-- C4 amended: the payments DDL constrains only the primary key, the
transaction_id uniqueness and the status set; it imposes nothing on
order_id, so adding any well-formed row — regardless of its order_id —
to a valid table yields a valid table.  In particular duplicate
Payment rows per order are schema-legal, and the processor has no
constraint-conflict fallback (its catch block rolls back and rethrows). -/
theorem payments_schema_no_order_id_uniqueness (t : List PaymentRow) (r : PaymentRow)
    (hok : paymentsTableOk t) (hid : r.id ∉ t.map (·.id))
    (htx : r.transaction_id = none) (hst : paymentStatusAllowed r.status = true) :
    paymentsTableOk (t ++ [r]) := by
  obtain ⟨hids, htxs, hsts⟩ := hok
  refine ⟨?_, ?_, ?_⟩
  · simp only [List.map_append, List.map_cons, List.map_nil]
    refine List.Nodup.append hids (List.nodup_singleton _) ?_
    intro x hx hxr
    rw [List.mem_singleton] at hxr
    exact hid (hxr ▸ hx)
  · simpa [List.filterMap_append, htx] using htxs
  · intro p hp
    rcases List.mem_append.mp hp with h | h
    · exact hsts p h
    · simpa [List.mem_singleton.mp h] using hst

/-- C4 witness: the amended theorem applied to a concrete one-row table and
a second row with the same order id 5. -/
theorem payments_schema_no_order_id_uniqueness_witness :
    paymentsTableOk ([⟨1, 5, 9, 10000, some "TXN-1-5", .succeeded, none⟩] ++
      [⟨2, 5, 9, 10000, none, .processing, none⟩]) :=
  payments_schema_no_order_id_uniqueness
    [⟨1, 5, 9, 10000, some "TXN-1-5", .succeeded, none⟩]
    ⟨2, 5, 9, 10000, none, .processing, none⟩
    (by decide) (by decide) rfl (by decide)

/-- C8 counterexample: publish performs no topic auto-provisioning and no
retry.  When the first publish hits a not-yet-existing topic (an
UnknownTopicOrPartition error from the broker send), publish rethrows the
error to the caller — not a soft failure — and its only broker action is
the producer send: no topic creation, no backoff sleep, contrary to the
claim that subscribe OR publish provision and retry. -/
theorem publish_no_provisioning_cex :
    Kafka.publish (some .unknownTopicOrPartition) =
      (.raised .unknownTopicOrPartition, [Kafka.Action.producerSend]) := by
  rfl

/-- C8 amended: only subscribe auto-provisions and retries.  Each subscribe
attempt first runs ensureTopicExists (creating the topic with 1 partition
and 7-day retention when it is not listed, errors swallowed) and on a
topic-related error retries at most 3 times with backoff
min(1000 * 2^k, 10000) ms — 1s, 2s, 4s — then returns null, a soft
(non-thrown) failure; a non-topic error is rethrown.  publish performs
exactly one producer send with no provisioning or retry, and surfaces its
error to the caller. -/
theorem subscribe_retry_publish_no_retry :
    (∀ topicListed : Nat → Bool,
      (Kafka.subscribe topicListed (fun _ => some .unknownTopicOrPartition)).1 =
        .softNull) ∧
    (∀ topicListed : Nat → Bool,
      (Kafka.subscribe topicListed (fun _ => some .unknownTopicOrPartition)).2.1 =
        [1000, 2000, 4000]) ∧
    ((Kafka.subscribe (fun _ => false) (fun _ => some .unknownTopicOrPartition)).2.2 =
      [.listTopics, .createTopic 1 604800000, .consumerSubscribe, .sleep 1000,
       .listTopics, .createTopic 1 604800000, .consumerSubscribe, .sleep 2000,
       .listTopics, .createTopic 1 604800000, .consumerSubscribe, .sleep 4000,
       .listTopics, .createTopic 1 604800000, .consumerSubscribe]) ∧
    (∀ msg, (Kafka.subscribe (fun _ => true) (fun _ => some (.other msg))).1 =
      .raised (.other msg)) ∧
    (∀ e, Kafka.publish (some e) = (.raised e, [Kafka.Action.producerSend])) ∧
    (Kafka.publish none = (.acked, [Kafka.Action.producerSend])) ∧
    (∀ k, Kafka.backoffDelay k ≤ 10000) := by
  refine ⟨fun _ => rfl, fun _ => rfl, rfl, fun _ => rfl, fun _ => rfl, rfl, fun k => ?_⟩
  exact min_le_right _ _

/-- C10: the idempotency short-circuit of processPayment triggers on any
existing Payment row for the order id, terminal or not.  When the stored
row is still in processing status, the call returns that status with
success false and no inserted row, no update and no published event (the
state is returned unchanged). -/
theorem processPayment_short_circuit_processing (draw now : Nat) (db : PaymentsDb)
    (orderId userId : Nat) (amount : Int) (p : PaymentRow)
    (hfind : findPayment db orderId = some p) (hst : p.status = .processing) :
    processPayment draw now db orderId userId amount =
      ({ success := false, payment_id := p.id, transaction_id := p.transaction_id,
         status := .processing, reason := none }, db) := by
  simp only [processPayment, hfind, hst]
  rfl

/-- C10 witness: a table holding a processing row for order 5; a redelivered
call returns processing with success false and changes nothing. -/
theorem processPayment_short_circuit_processing_witness :
    findPayment processingPaymentsDb 5 = some ⟨1, 5, 9, 10000, none, .processing, none⟩ ∧
      PaymentStatus.processing = PaymentStatus.processing ∧
      processPayment 3 1700000000000 processingPaymentsDb 5 9 10000 =
        ({ success := false, payment_id := 1, transaction_id := none,
           status := .processing, reason := none }, processingPaymentsDb) :=
  ⟨by decide, rfl,
    processPayment_short_circuit_processing 3 1700000000000 processingPaymentsDb
      5 9 10000 ⟨1, 5, 9, 10000, none, .processing, none⟩ (by decide) rfl⟩

/-- C5 counterexample: the status route performs no state-machine check.
An order already in the terminal status delivered is moved back to pending
by an admin request, and the new status is persisted — the claim that every
update from a terminal state is rejected with the stored status unchanged
is false. -/
theorem updateOrderStatus_terminal_overwritten_cex :
    (updateOrderStatus ordersDbDelivered "admin" (some "pending") 1).1 =
        .ok ⟨1, 7, 5998, .pending, none⟩ ∧
      ((updateOrderStatus ordersDbDelivered "admin" (some "pending") 1).2).orders =
        [⟨1, 7, 5998, .pending, none⟩] := by
  decide

/-- C5 amended: PUT /orders/:id/status validates only that the requested
status string is one of the five literals (otherwise 400 with the stored
state unchanged); any such status is then persisted for the matching order
regardless of its current status — including from the terminal statuses
delivered and cancelled — and an unknown order id returns not-found with
the state unchanged. -/
theorem updateOrderStatus_no_transition_check (db : OrdersDb) (s : String)
    (st : OrderStatus) (orderId : Nat) (hs : parseStatus s = some st) :
    (∀ o ∈ ((updateOrderStatus db "admin" (some s) orderId).2).orders,
        o.id = orderId → o.status = st) ∧
      ((∃ o ∈ db.orders, o.id = orderId) →
        ∃ o, (updateOrderStatus db "admin" (some s) orderId).1 = .ok o ∧ o.status = st) ∧
      ((∀ o ∈ db.orders, o.id ≠ orderId) →
        updateOrderStatus db "admin" (some s) orderId = (.notFound, db)) ∧
      (∀ bad, parseStatus bad = none →
        updateOrderStatus db "admin" (some bad) orderId =
          (.badRequest "Status must be one of: pending, confirmed, shipped, delivered, cancelled",
            db)) := by
  have keyNil :
      (db.orders.map (fun o => if o.id = orderId then { o with status := st } else o)).filter
          (fun o => o.id == orderId) = [] →
        updateOrderStatus db "admin" (some s) orderId = (.notFound, db) := by
    intro hfil
    simp only [updateOrderStatus, hs]
    rw [if_neg (fun h => h rfl), hfil]
  have keyCons : ∀ o1 rest,
      (db.orders.map (fun o => if o.id = orderId then { o with status := st } else o)).filter
          (fun o => o.id == orderId) = o1 :: rest →
        updateOrderStatus db "admin" (some s) orderId = (.ok o1,
          { db with orders :=
              db.orders.map (fun o => if o.id = orderId then { o with status := st } else o) }) := by
    intro o1 rest hfil
    simp only [updateOrderStatus, hs]
    rw [if_neg (fun h => h rfl), hfil]
  have hupd :
      ∀ o ∈ db.orders.map (fun o => if o.id = orderId then { o with status := st } else o),
        o.id = orderId → o.status = st := by
    intro o ho hid
    rcases List.mem_map.mp ho with ⟨o0, _, rfl⟩
    by_cases h0 : o0.id = orderId
    · simp [h0]
    · simp only [if_neg h0] at hid ⊢
      exact absurd hid h0
  refine ⟨?_, ?_, ?_, ?_⟩
  · intro o ho
    rcases hfil : (db.orders.map (fun o => if o.id = orderId then { o with status := st } else o)).filter
        (fun o => o.id == orderId) with _ | ⟨o1, rest⟩
    · rw [keyNil hfil] at ho
      intro hid
      exfalso
      have hall := List.filter_eq_nil_iff.mp hfil
      have hmem : (if o.id = orderId then { o with status := st } else o) ∈
          db.orders.map (fun o => if o.id = orderId then { o with status := st } else o) :=
        List.mem_map_of_mem _ ho
      rw [if_pos hid] at hmem
      exact hall _ hmem (by simpa using hid)
    · rw [keyCons o1 rest hfil] at ho
      exact hupd o ho
  · rintro ⟨o0, ho0, hid0⟩
    have hmem : (if o0.id = orderId then { o0 with status := st } else o0) ∈
        db.orders.map (fun o => if o.id = orderId then { o with status := st } else o) :=
      List.mem_map_of_mem _ ho0
    rw [if_pos hid0] at hmem
    have hpred : (({ o0 with status := st } : OrderRow).id == orderId) = true := by
      simpa using hid0
    have hmemf : ({ o0 with status := st } : OrderRow) ∈
        (db.orders.map (fun o => if o.id = orderId then { o with status := st } else o)).filter
          (fun o => o.id == orderId) := List.mem_filter.mpr ⟨hmem, hpred⟩
    rcases hfil : (db.orders.map (fun o => if o.id = orderId then { o with status := st } else o)).filter
        (fun o => o.id == orderId) with _ | ⟨o1, rest⟩
    · rw [hfil] at hmemf
      exact absurd hmemf (List.not_mem_nil _)
    · have ho1 := List.mem_filter.mp (hfil ▸ List.mem_cons_self o1 rest)
      rw [keyCons o1 rest hfil]
      exact ⟨o1, rfl, hupd o1 ho1.1 (by simpa using ho1.2)⟩
  · intro hnone
    have hfil : (db.orders.map (fun o => if o.id = orderId then { o with status := st } else o)).filter
        (fun o => o.id == orderId) = [] := by
      rw [List.filter_eq_nil_iff]
      intro o ho
      rcases List.mem_map.mp ho with ⟨o0, ho0, rfl⟩
      have hne := hnone o0 ho0
      rw [if_neg hne]
      simpa using hne
    exact keyNil hfil
  · intro bad hbad
    simp only [updateOrderStatus, hbad]
    rw [if_neg (fun h => h rfl)]

/-- C5 witness: the amended theorem applied to the delivered order of the
fixture, moved to pending. -/
theorem updateOrderStatus_no_transition_check_witness :
    parseStatus "pending" = some OrderStatus.pending ∧
      ((∃ o ∈ ordersDbDelivered.orders, o.id = 1) →
        ∃ o, (updateOrderStatus ordersDbDelivered "admin" (some "pending") 1).1 = .ok o ∧
          o.status = .pending) :=
  ⟨rfl, (updateOrderStatus_no_transition_check ordersDbDelivered "pending" .pending 1 rfl).2.1⟩

/-- Helper: once the single message has been processed (offset 1 on a
one-message log), further runner steps neither change state nor deliver. -/
theorem runSteps_after_commit (n : Nat) :
    Kafka.runSteps (Kafka.eachMessageWrapper throwingHandler) oneMessageLog n
      ⟨1, 1, false⟩ = (⟨1, 1, false⟩, []) := by
  unfold oneMessageLog
  induction n with
  | zero => rfl
  | succ n ih => simp [Kafka.runSteps, Kafka.runStep, ih]

/-- Helper: a directly-throwing eachMessage (no catch) never resolves the
offset, so the same message is delivered at every step. -/
theorem runSteps_rethrow_redelivers (n : Nat) :
    Kafka.runSteps throwingHandler oneMessageLog n ⟨0, 0, false⟩ =
      (⟨0, 0, false⟩, List.replicate n "order-created-42") := by
  unfold oneMessageLog
  induction n with
  | zero => rfl
  | succ n ih =>
    simp [Kafka.runSteps, Kafka.runStep, throwingHandler, ih, List.replicate_succ]

/-- C9: the substrate catches and logs a thrown handler error and the
consumer loop survives — but because the eachMessage catch block does not
rethrow, eachMessage returns normally, kafkajs resolves and commits the
offset, and the message is never redelivered: on a one-message log with an
always-throwing handler, every run of at least one step ends with offset
and committed position 1 and exactly one delivery.  Had the error
propagated out of eachMessage (as the at-least-once contract and the
comment in the catch block intend), the offset would stay unresolved and
the message would be redelivered at every step. -/
theorem handler_exception_commits_offset_no_redelivery :
    Kafka.eachMessageWrapper throwingHandler "order-created-42" = .ok ∧
      Kafka.runStep (Kafka.eachMessageWrapper throwingHandler) oneMessageLog
        ⟨0, 0, false⟩ = (⟨1, 1, false⟩, some "order-created-42") ∧
      (∀ n, Kafka.runSteps (Kafka.eachMessageWrapper throwingHandler) oneMessageLog
        (n + 1) ⟨0, 0, false⟩ = (⟨1, 1, false⟩, ["order-created-42"])) ∧
      (∀ n, Kafka.runSteps throwingHandler oneMessageLog n ⟨0, 0, false⟩ =
        (⟨0, 0, false⟩, List.replicate n "order-created-42")) := by
  refine ⟨rfl, rfl, fun n => ?_, fun n => runSteps_rethrow_redelivers n⟩
  have h := runSteps_after_commit n
  unfold oneMessageLog at h ⊢
  simp [Kafka.runSteps, Kafka.runStep, Kafka.eachMessageWrapper, throwingHandler, h]

/-- Helper: the short-circuit branch of processPayment — any existing row
for the order id is returned as is, with the state untouched. -/
theorem processPayment_existing (draw now : Nat) (db : PaymentsDb)
    (orderId userId : Nat) (amount : Int) (p : PaymentRow)
    (hfind : findPayment db orderId = some p) :
    processPayment draw now db orderId userId amount =
      ({ success := p.status == .succeeded, payment_id := p.id,
         transaction_id := p.transaction_id, status := p.status, reason := none }, db) := by
  simp [processPayment, hfind]

/-- Helper: once a row for the order id exists, any sequence of further
calls returns its status every time and leaves the state unchanged. -/
theorem processPaymentRuns_const (pm : List PaymentRow) (ev : List Event) (nid : Nat)
    (orderId userId : Nat) (amount : Int) (p : PaymentRow)
    (hfind : pm.find? (fun q => q.order_id == orderId) = some p) :
    ∀ os : List (Nat × Nat), processPaymentRuns ⟨pm, ev, nid⟩ orderId userId amount os =
      (os.map (fun _ => p.status), (⟨pm, ev, nid⟩ : PaymentsDb)) := by
  intro os
  induction os with
  | nil => rfl
  | cons o rest ih =>
    obtain ⟨draw, now⟩ := o
    simp [processPaymentRuns,
      processPayment_existing draw now ⟨pm, ev, nid⟩ orderId userId amount p hfind, ih]

/-- Helper: the order_id column is untouched by the outcome UPDATE, so the
update commutes with filtering by order id. -/
theorem filter_setOutcome (rows : List PaymentRow) (pid : Nat) (st : PaymentStatus)
    (txn : String) (rsn : Option String) (orderId : Nat) :
    (setOutcome rows pid st txn rsn).filter (fun p => p.order_id == orderId) =
      (rows.filter (fun p => p.order_id == orderId)).map
        (fun p => if p.id = pid then outcomeRow p st txn rsn else p) := by
  induction rows with
  | nil => rfl
  | cons a rows ih =>
    have hord : ((if a.id = pid then outcomeRow a st txn rsn else a).order_id == orderId) =
        (a.order_id == orderId) := by
      by_cases h : a.id = pid <;> simp [h, outcomeRow]
    by_cases hm : (a.order_id == orderId) = true
    · simp only [setOutcome, List.map_cons, List.filter_cons, hord, hm, if_true] at ih ⊢
      simpa using ih
    · have hm2 : (a.order_id == orderId) = false := by simpa using hm
      simp only [setOutcome, List.map_cons, List.filter_cons, hord, hm2] at ih ⊢
      simpa using ih

/-- Helper: the same commutation for the lookup by order id. -/
theorem find?_setOutcome (rows : List PaymentRow) (pid : Nat) (st : PaymentStatus)
    (txn : String) (rsn : Option String) (orderId : Nat) :
    (setOutcome rows pid st txn rsn).find? (fun p => p.order_id == orderId) =
      (rows.find? (fun p => p.order_id == orderId)).map
        (fun p => if p.id = pid then outcomeRow p st txn rsn else p) := by
  induction rows with
  | nil => rfl
  | cons a rows ih =>
    have hord : ((if a.id = pid then outcomeRow a st txn rsn else a).order_id == orderId) =
        (a.order_id == orderId) := by
      by_cases h : a.id = pid <;> simp [h, outcomeRow]
    by_cases hm : (a.order_id == orderId) = true
    · simp [setOutcome, List.find?_cons, hord, hm]
    · have hm2 : (a.order_id == orderId) = false := by simpa using hm
      simp only [setOutcome, List.map_cons, List.find?_cons, hord, hm2] at ih ⊢
      simpa [setOutcome] using ih

/-- Helper: find? skips a prefix in which nothing matches. -/
theorem find?_append_of_none {α : Type} (A B : List α) (pred : α → Bool)
    (h : A.find? pred = none) : (A ++ B).find? pred = B.find? pred := by
  induction A with
  | nil => rfl
  | cons a A ih =>
    rw [List.find?_cons] at h
    rcases hpa : pred a with _ | _
    · rw [hpa] at h
      simp only [List.cons_append, List.find?_cons, hpa]
      exact ih h
    · rw [hpa] at h
      exact absurd h (by simp)

/-- Helper: filtering the updated table for the order id yields exactly the
updated fresh row, when no old row matches and the fresh row does. -/
theorem filter_setOutcome_append (A : List PaymentRow) (P : PaymentRow)
    (pid : Nat) (st : PaymentStatus) (txn : String) (rsn : Option String) (orderId : Nat)
    (hA : ∀ p ∈ A, (p.order_id == orderId) = false) (hP : (P.order_id == orderId) = true) :
    (setOutcome (A ++ [P]) pid st txn rsn).filter (fun p => p.order_id == orderId) =
      [if P.id = pid then outcomeRow P st txn rsn else P] := by
  rw [filter_setOutcome, List.filter_append]
  have h1 : A.filter (fun p => p.order_id == orderId) = [] :=
    List.filter_eq_nil_iff.mpr (fun p hp => by simp [hA p hp])
  rw [h1]
  simp [List.filter_cons, hP]

/-- Helper: looking the updated table up by order id finds the updated
fresh row, when no old row matches and the fresh row does. -/
theorem find?_setOutcome_append (A : List PaymentRow) (P : PaymentRow)
    (pid : Nat) (st : PaymentStatus) (txn : String) (rsn : Option String) (orderId : Nat)
    (hA : ∀ p ∈ A, (p.order_id == orderId) = false) (hP : (P.order_id == orderId) = true) :
    (setOutcome (A ++ [P]) pid st txn rsn).find? (fun p => p.order_id == orderId) =
      some (if P.id = pid then outcomeRow P st txn rsn else P) := by
  rw [find?_setOutcome]
  have hAn : A.find? (fun p => p.order_id == orderId) = none :=
    List.find?_eq_none.mpr (fun p hp => by simp [hA p hp])
  rw [find?_append_of_none A [P] _ hAn]
  simp [List.find?_cons, hP]

/-- C3: processPayment is idempotent in the order id under sequential
redelivery.  Starting from a table with no row for the order id, the first
call ends in a terminal status, leaves exactly one Payment row for the
order id and appends exactly one (payment.attempted, terminal) event pair
keyed by the order id; every later call — whatever its random draw and
clock reading — changes nothing and returns the same terminal status. -/
theorem processPayment_sequential_idempotent (draw now : Nat) (db : PaymentsDb)
    (orderId userId : Nat) (amount : Int) (rest : List (Nat × Nat))
    (hnone : findPayment db orderId = none) :
    ((processPayment draw now db orderId userId amount).1.status = .failed ∨
      (processPayment draw now db orderId userId amount).1.status = .succeeded) ∧
    (((processPayment draw now db orderId userId amount).2).payments.filter
        (fun p => p.order_id == orderId)).length = 1 ∧
    (∃ ev, ((processPayment draw now db orderId userId amount).2).events =
        db.events ++ [attemptedEvent orderId userId amount, ev] ∧
        (ev.topic = "payment.failed" ∨ ev.topic = "payment.succeeded") ∧
        ev.key = toString orderId) ∧
    processPaymentRuns ((processPayment draw now db orderId userId amount).2)
        orderId userId amount rest =
      (rest.map (fun _ => (processPayment draw now db orderId userId amount).1.status),
        (processPayment draw now db orderId userId amount).2) := by
  have hA : ∀ p ∈ db.payments, (p.order_id == orderId) = false := by
    intro p hp
    have := List.find?_eq_none.mp hnone p hp
    exact Bool.eq_false_iff.mpr this
  have hP : ((⟨db.nextPaymentId, orderId, userId, amount, none, .processing, none⟩ :
      PaymentRow).order_id == orderId) = true := by simp
  by_cases hd : draw = 0
  · simp only [processPayment, hnone, hd, beq_self_eq_true, if_true, ite_true]
    refine ⟨?_, ?_, ?_, ?_⟩
    · simp
    · rw [filter_setOutcome_append db.payments _ _ _ _ _ orderId hA hP, if_pos rfl]
      rfl
    · exact ⟨⟨"payment.failed", toString orderId, some (mkTxnId now orderId), orderId,
        userId, amount, some "Simulated payment failure"⟩, by simp, Or.inl rfl, rfl⟩
    · have hfind := find?_setOutcome_append db.payments
        ⟨db.nextPaymentId, orderId, userId, amount, none, .processing, none⟩
        db.nextPaymentId .failed (mkTxnId now orderId)
        (some "Simulated payment failure") orderId hA hP
      rw [if_pos rfl] at hfind
      exact processPaymentRuns_const _ _ _ orderId userId amount _ hfind rest
  · have hd2 : (draw == 0) = false := by simpa using hd
    simp only [processPayment, hnone, hd2, Bool.false_eq_true, if_false, ite_false]
    refine ⟨?_, ?_, ?_, ?_⟩
    · simp
    · rw [filter_setOutcome_append db.payments _ _ _ _ _ orderId hA hP, if_pos rfl]
      rfl
    · exact ⟨⟨"payment.succeeded", toString orderId, some (mkTxnId now orderId), orderId,
        userId, amount, none⟩, by simp, Or.inr rfl, rfl⟩
    · have hfind := find?_setOutcome_append db.payments
        ⟨db.nextPaymentId, orderId, userId, amount, none, .processing, none⟩
        db.nextPaymentId .succeeded (mkTxnId now orderId) none orderId hA hP
      rw [if_pos rfl] at hfind
      exact processPaymentRuns_const _ _ _ orderId userId amount _ hfind rest

/-- C3 witness: a fresh order 5 processed once (random draw 3, clock 1) and
then redelivered twice with different draws and clocks: both later calls
return the first call's status and the state after all three calls is the
state after the first. -/
theorem processPayment_sequential_idempotent_witness :
    findPayment emptyPaymentsDb 5 = none ∧
      ((((processPayment 3 1 emptyPaymentsDb 5 9 10000).2).payments.filter
          (fun p => p.order_id == 5)).length = 1 ∧
        processPaymentRuns ((processPayment 3 1 emptyPaymentsDb 5 9 10000).2) 5 9 10000
            [(0, 2), (4, 7)] =
          ([(processPayment 3 1 emptyPaymentsDb 5 9 10000).1.status,
            (processPayment 3 1 emptyPaymentsDb 5 9 10000).1.status],
            (processPayment 3 1 emptyPaymentsDb 5 9 10000).2)) :=
  ⟨rfl, by
    have h := processPayment_sequential_idempotent 3 1 emptyPaymentsDb 5 9 10000
      [(0, 2), (4, 7)] rfl
    exact ⟨h.2.1, by simpa using h.2.2.2⟩⟩

/-- C7: with the failure rate configured so that one attempt in 1 fails
(PAYMENT_FAILURE_RATE = 1, forcing Math.floor(Math.random() * 1) = 0, here
the hypothesis draw < 1), every call for an order with no existing Payment
row ends with the row updated to status failed carrying the non-null
failure reason and a freshly assigned non-null transaction id, and the
events appended are exactly one payment.attempted and one payment.failed
keyed by the order id — no payment.succeeded. -/
theorem processPayment_always_fail_rate_one (draw now : Nat) (db : PaymentsDb)
    (orderId userId : Nat) (amount : Int) (hdraw : draw < 1)
    (hnone : findPayment db orderId = none) :
    processPayment draw now db orderId userId amount =
      ({ success := false, payment_id := db.nextPaymentId,
         transaction_id := some (mkTxnId now orderId), status := .failed,
         reason := some "Simulated payment failure" },
       { payments := setOutcome (db.payments ++
           [⟨db.nextPaymentId, orderId, userId, amount, none, .processing, none⟩])
           db.nextPaymentId .failed (mkTxnId now orderId)
           (some "Simulated payment failure"),
         events := db.events ++ [attemptedEvent orderId userId amount] ++
           [⟨"payment.failed", toString orderId, some (mkTxnId now orderId), orderId,
             userId, amount, some "Simulated payment failure"⟩],
         nextPaymentId := db.nextPaymentId + 1 }) ∧
    ∃ p, findPayment ((processPayment draw now db orderId userId amount).2) orderId =
        some p ∧ p.status = .failed ∧
        p.failure_reason = some "Simulated payment failure" ∧
        p.transaction_id = some (mkTxnId now orderId) := by
  have hd : draw = 0 := Nat.lt_one_iff.mp hdraw
  have hA : ∀ p ∈ db.payments, (p.order_id == orderId) = false := by
    intro p hp
    exact Bool.eq_false_iff.mpr (List.find?_eq_none.mp hnone p hp)
  have hP : ((⟨db.nextPaymentId, orderId, userId, amount, none, .processing, none⟩ :
      PaymentRow).order_id == orderId) = true := by simp
  constructor
  · simp only [processPayment, hnone, hd, beq_self_eq_true, if_true, ite_true]
  · have hfind := find?_setOutcome_append db.payments
      ⟨db.nextPaymentId, orderId, userId, amount, none, .processing, none⟩
      db.nextPaymentId .failed (mkTxnId now orderId)
      (some "Simulated payment failure") orderId hA hP
    rw [if_pos rfl] at hfind
    refine ⟨outcomeRow ⟨db.nextPaymentId, orderId, userId, amount, none, .processing, none⟩
        .failed (mkTxnId now orderId) (some "Simulated payment failure"), ?_, rfl, rfl, rfl⟩
    simp only [processPayment, hnone, hd, beq_self_eq_true, if_true, ite_true]
    exact hfind

/-- C7 witness: the theorem applied to draw 0 on an empty payments table. -/
theorem processPayment_always_fail_rate_one_witness :
    0 < 1 ∧ findPayment emptyPaymentsDb 5 = none ∧
      ∃ p, findPayment ((processPayment 0 1 emptyPaymentsDb 5 9 10000).2) 5 = some p ∧
        p.status = .failed ∧ p.failure_reason = some "Simulated payment failure" ∧
        p.transaction_id = some (mkTxnId 1 5) :=
  ⟨Nat.zero_lt_one, rfl,
    (processPayment_always_fail_rate_one 0 1 emptyPaymentsDb 5 9 10000
      Nat.zero_lt_one rfl).2⟩

/-- Helper: the per-item validation accepts exactly the item lists with
positive quantities and non-zero product ids. -/
theorem firstItemError_none (items : List OrderItemReq)
    (hval : ∀ i ∈ items, 0 < i.quantity ∧ i.product_id ≠ 0) :
    firstItemError items = none := by
  induction items with
  | nil => rfl
  | cons i rest ih =>
    obtain ⟨hq, hp⟩ := hval i (List.mem_cons_self i rest)
    rw [firstItemError, if_neg (by push_neg; exact ⟨hp, by omega⟩), if_neg (by omega)]
    exact ih (fun j hj => hval j (List.mem_cons_of_mem i hj))

/-- Helper: on a duplicate-free list, filtering by membership in a
duplicate-free sub-collection keeps exactly as many elements as the
sub-collection has. -/
theorem nodup_filter_contains_length (S ids : List Nat) (hS : S.Nodup)
    (hids : ids.Nodup) (hsub : ∀ x ∈ ids, x ∈ S) :
    (S.filter (fun x => ids.contains x)).length = ids.length := by
  classical
  have h1 : S.filter (fun x => ids.contains x) = S.filter (fun x => decide (x ∈ ids)) := by
    apply List.filter_congr
    intro x _
    by_cases h : x ∈ ids <;> simp [h]
  rw [h1]
  have hnd : (S.filter (fun x => decide (x ∈ ids))).Nodup := hS.filter _
  rw [← List.toFinset_card_of_nodup hnd, List.toFinset_filter]
  have h3 : S.toFinset.filter (fun a => decide (a ∈ ids) = true) =
      S.toFinset ∩ ids.toFinset := by
    ext x
    simp [Finset.mem_filter, Finset.mem_inter]
  rw [h3]
  have h4 : S.toFinset ∩ ids.toFinset = ids.toFinset := by
    rw [Finset.inter_eq_right]
    intro x hx
    rw [List.mem_toFinset] at hx ⊢
    exact hsub x hx
  rw [h4]
  exact List.toFinset_card_of_nodup hids

/-- Helper: the SELECT ... WHERE id IN (ids) row count equals the number of
requested ids exactly when the table ids are unique, the requested ids are
pairwise distinct and every requested id is present. -/
theorem products_filter_length (ps : List Product) (ids : List Nat)
    (hpk : (ps.map (·.id)).Nodup) (hids : ids.Nodup)
    (hsub : ∀ x ∈ ids, ∃ p ∈ ps, p.id = x) :
    (ps.filter (fun p => ids.contains p.id)).length = ids.length := by
  have hlift : (ps.filter (fun p => ids.contains p.id)).length =
      ((ps.map (fun p => p.id)).filter (fun x => ids.contains x)).length := by
    rw [List.filter_map, List.length_map]
    rfl
  rw [hlift]
  refine nodup_filter_contains_length _ _ hpk hids ?_
  intro x hx
  obtain ⟨p, hp, hpx⟩ := hsub x hx
  rw [List.mem_map]
  exact ⟨p, hp, hpx⟩

/-- Helper: everything the check-and-price loop guarantees when it
succeeds: the produced rows are aligned one-to-one with the request items,
and every produced row captures the matched product's price, computes
subtotal as price times quantity, and had sufficient stock. -/
theorem buildItems_ok_spec (sel : List Product) :
    ∀ (items : List OrderItemReq) (pending : List PendingItem),
      buildItems sel items = .ok pending →
      pending.map PendingItem.pq = items.map OrderItemReq.pq ∧
      ∀ x ∈ pending, ∃ p ∈ sel, p.id = x.product_id ∧ x.unit_price = p.price ∧
        x.subtotal = p.price * x.quantity ∧ x.quantity ≤ p.stock := by
  intro items
  induction items with
  | nil =>
    intro pending h
    rw [buildItems] at h
    cases h
    exact ⟨rfl, by simp⟩
  | cons i rest ih =>
    intro pending h
    rw [buildItems] at h
    rcases hf : sel.find? (fun q => q.id == i.product_id) with _ | p <;> simp only [hf] at h
    · exact absurd h (by simp)
    · by_cases hst : p.stock < i.quantity
      · rw [if_pos hst] at h
        exact absurd h (by simp)
      · rw [if_neg hst] at h
        rcases hb : buildItems sel rest with e | rest2 <;> simp only [hb] at h
        · exact absurd h (by simp)
        · cases h
          obtain ⟨hmap, helem⟩ := ih rest2 hb
          have hpid : p.id = i.product_id := by
            simpa using List.find?_some hf
          have hpmem : p ∈ sel := List.mem_of_find?_eq_some hf
          constructor
          · simp [PendingItem.pq, OrderItemReq.pq, hmap]
          · intro x hx
            rcases List.mem_cons.mp hx with rfl | hx2
            · exact ⟨p, hpmem, hpid, rfl, rfl, not_lt.mp hst⟩
            · exact helem x hx2

/-- Helper: the check-and-price loop succeeds when every item finds its
product with sufficient stock. -/
theorem buildItems_ok_of (sel : List Product) :
    ∀ items : List OrderItemReq,
      (∀ i ∈ items, ∃ p, sel.find? (fun q => q.id == i.product_id) = some p ∧
        i.quantity ≤ p.stock) →
      ∃ pending, buildItems sel items = .ok pending := by
  intro items
  induction items with
  | nil => exact fun _ => ⟨[], rfl⟩
  | cons i rest ih =>
    intro hall
    obtain ⟨p, hf, hst⟩ := hall i (List.mem_cons_self i rest)
    obtain ⟨pd, hpd⟩ := ih (fun j hj => hall j (List.mem_cons_of_mem i hj))
    refine ⟨{ product_id := i.product_id, quantity := i.quantity,
              unit_price := p.price, subtotal := p.price * i.quantity } :: pd, ?_⟩
    simp only [buildItems, hf, if_neg (not_lt.mpr hst), hpd]

/-- Helper: complete case analysis of the order handler — either some check
failed, nothing was created and the state is unchanged (ROLLBACK), or every
check passed and the commit wrote exactly the order, its item rows and the
stock decrements. -/
theorem createOrder_cases (db : OrdersDb) (userId : Nat) (items : List OrderItemReq)
    (notes : Option String) :
    ((items.isEmpty = true ∨ (∃ e, firstItemError items = some e) ∨
        (db.products.filter (fun p => (items.map (·.product_id)).contains p.id)).length ≠
          (items.map (·.product_id)).length ∨
        ∃ e, buildItems (db.products.filter
          (fun p => (items.map (·.product_id)).contains p.id)) items = .error e) ∧
      (createOrder db userId items notes).1.isCreated = false ∧
      (createOrder db userId items notes).2 = db) ∨
    (∃ pending,
      buildItems (db.products.filter
        (fun p => (items.map (·.product_id)).contains p.id)) items = .ok pending ∧
      (db.products.filter (fun p => (items.map (·.product_id)).contains p.id)).length =
        (items.map (·.product_id)).length ∧
      createOrder db userId items notes =
        (.created
          { id := db.nextOrderId, user_id := userId,
            total := (pending.map (·.subtotal)).foldl (· + ·) 0,
            status := .pending, notes := notes }
          (mkItemRows db.nextOrderId db.nextItemId pending),
         { products := decStocks db.products pending,
           orders := db.orders ++
             [{ id := db.nextOrderId, user_id := userId,
                total := (pending.map (·.subtotal)).foldl (· + ·) 0,
                status := .pending, notes := notes }],
           order_items := db.order_items ++ mkItemRows db.nextOrderId db.nextItemId pending,
           nextOrderId := db.nextOrderId + 1,
           nextItemId := db.nextItemId + pending.length })) := by
  by_cases he : items.isEmpty
  · refine Or.inl ⟨Or.inl he, ?_, ?_⟩
    · simp only [createOrder]
      rw [if_pos he]
      rfl
    · simp only [createOrder]
      rw [if_pos he]
  · have he2 : items.isEmpty = false := Bool.eq_false_iff.mpr he
    have hne : ¬(items.isEmpty = true) := by simp [he2]
    rcases hfe : firstItemError items with _ | e
    · by_cases hlen : (db.products.filter
          (fun p => (items.map (·.product_id)).contains p.id)).length =
            (items.map (·.product_id)).length
      · rcases hbi : buildItems (db.products.filter
            (fun p => (items.map (·.product_id)).contains p.id)) items with e | pending
        · refine Or.inl ⟨Or.inr (Or.inr (Or.inr ⟨e, hbi⟩)), ?_, ?_⟩
          · simp only [createOrder]
            rw [if_neg hne]
            simp only [hfe]
            rw [if_neg (not_not_intro hlen)]
            simp only [hbi]
            rfl
          · simp only [createOrder]
            rw [if_neg hne]
            simp only [hfe]
            rw [if_neg (not_not_intro hlen)]
            simp only [hbi]
        · refine Or.inr ⟨pending, hbi, hlen, ?_⟩
          simp only [createOrder]
          rw [if_neg hne]
          simp only [hfe]
          rw [if_neg (not_not_intro hlen)]
          simp only [hbi]
      · refine Or.inl ⟨Or.inr (Or.inr (Or.inl hlen)), ?_, ?_⟩
        · simp only [createOrder]
          rw [if_neg hne]
          simp only [hfe]
          rw [if_pos hlen]
          rfl
        · simp only [createOrder]
          rw [if_neg hne]
          simp only [hfe]
          rw [if_pos hlen]
    · refine Or.inl ⟨Or.inr (Or.inl ⟨e, rfl⟩), ?_, ?_⟩
      · simp only [createOrder]
        rw [if_neg hne]
        simp only [hfe]
        rfl
      · simp only [createOrder]
        rw [if_neg hne]
        simp only [hfe]

/-- Helper: the stock-decrement loop subtracts, for every product row, the
total quantity the order requested for that product id (zero for products
the order does not reference). -/
theorem decStocks_eq_map (pending : List PendingItem) :
    ∀ ps : List Product, decStocks ps pending = ps.map (fun p =>
      { p with stock := p.stock - requestedQty (pending.map PendingItem.pq) p.id }) := by
  induction pending with
  | nil =>
    intro ps
    have hid : ∀ p : Product,
        ({ p with stock := p.stock - requestedQty [] p.id } : Product) = p := by
      intro p
      cases p
      simp [requestedQty]
    simp only [decStocks, List.foldl_nil, List.map_nil]
    rw [List.map_congr_left (fun p _ => hid p)]
    exact (List.map_id ps).symm
  | cons it rest ih =>
    intro ps
    have step : decStocks ps (it :: rest) =
        decStocks (applyStockDec ps it.product_id it.quantity) rest := rfl
    rw [step, ih, applyStockDec, List.map_map]
    apply List.map_congr_left
    intro p _
    by_cases hpid : p.id = it.product_id
    · have hq : requestedQty ((it :: rest).map PendingItem.pq) p.id =
          it.quantity + requestedQty (rest.map PendingItem.pq) p.id := by
        simp [requestedQty, PendingItem.pq, List.filter_cons, hpid.symm]
      simp only [Function.comp, if_pos hpid, hq]
      simp [sub_sub]
    · have hq : requestedQty ((it :: rest).map PendingItem.pq) p.id =
          requestedQty (rest.map PendingItem.pq) p.id := by
        simp [requestedQty, PendingItem.pq, List.filter_cons, Ne.symm hpid]
      simp only [Function.comp, if_neg hpid, hq]

/-- Helper: the inserted item rows carry exactly the pending subtotals. -/
theorem mkItemRows_subtotals (oid : Nat) :
    ∀ (nid : Nat) (pending : List PendingItem),
      (mkItemRows oid nid pending).map (·.subtotal) = pending.map (·.subtotal) := by
  intro nid pending
  induction pending generalizing nid with
  | nil => rfl
  | cons it rest ih => simp [mkItemRows, ih]

/-- Helper: the inserted item rows carry exactly the pending
(product id, quantity) pairs, in order. -/
theorem mkItemRows_pq (oid : Nat) :
    ∀ (nid : Nat) (pending : List PendingItem),
      (mkItemRows oid nid pending).map (fun r => (r.product_id, r.quantity)) =
        pending.map PendingItem.pq := by
  intro nid pending
  induction pending generalizing nid with
  | nil => rfl
  | cons it rest ih => simp [mkItemRows, PendingItem.pq, ih]

/-- Helper: every inserted item row comes from a pending item with the same
business columns. -/
theorem mkItemRows_mem (oid : Nat) :
    ∀ (nid : Nat) (pending : List PendingItem), ∀ r ∈ mkItemRows oid nid pending,
      ∃ x ∈ pending, r.product_id = x.product_id ∧ r.quantity = x.quantity ∧
        r.unit_price = x.unit_price ∧ r.subtotal = x.subtotal := by
  intro nid pending
  induction pending generalizing nid with
  | nil => intro r hr; exact absurd hr (List.not_mem_nil r)
  | cons it rest ih =>
    intro r hr
    rcases List.mem_cons.mp hr with rfl | hr2
    · exact ⟨it, List.mem_cons_self it rest, rfl, rfl, rfl, rfl⟩
    · obtain ⟨x, hx, hprops⟩ := ih (nid + 1) r hr2
      exact ⟨x, List.mem_cons_of_mem it hx, hprops⟩

/-- Helper: a committed order implies that every item found its product in
the products table with sufficient stock. -/
theorem buildItems_ok_availability (db : OrdersDb) (items : List OrderItemReq)
    (pending : List PendingItem)
    (hbi : buildItems (db.products.filter
      (fun p => (items.map (·.product_id)).contains p.id)) items = .ok pending) :
    ∀ i ∈ items, ∃ p ∈ db.products, p.id = i.product_id ∧ i.quantity ≤ p.stock := by
  obtain ⟨hmap, helem⟩ := buildItems_ok_spec _ items pending hbi
  intro i hi
  have hpq : OrderItemReq.pq i ∈ pending.map PendingItem.pq := by
    rw [hmap]
    exact List.mem_map_of_mem _ hi
  obtain ⟨x, hx, hxpq⟩ := List.mem_map.mp hpq
  have hxid : x.product_id = i.product_id := congrArg Prod.fst hxpq
  have hxqty : x.quantity = i.quantity := congrArg Prod.snd hxpq
  obtain ⟨p, hpsel, hpid, _, _, hstock⟩ := helem x hx
  refine ⟨p, List.mem_of_mem_filter hpsel, by rw [hpid, hxid], ?_⟩
  rw [← hxqty]
  exact hstock

/-- Helper: when every item has its product present with sufficient stock,
the table ids are unique and the requested ids are distinct, the
check-and-price loop succeeds. -/
theorem buildItems_ok_of_availability (db : OrdersDb) (items : List OrderItemReq)
    (hpk : (db.products.map (·.id)).Nodup)
    (havail : ∀ i ∈ items, ∃ p ∈ db.products, p.id = i.product_id ∧ i.quantity ≤ p.stock) :
    ∃ pending, buildItems (db.products.filter
      (fun p => (items.map (·.product_id)).contains p.id)) items = .ok pending := by
  apply buildItems_ok_of
  intro i hi
  obtain ⟨p, hp, hpid, hstock⟩ := havail i hi
  have hmemid : p.id ∈ items.map (·.product_id) := by
    rw [hpid]
    exact List.mem_map_of_mem _ hi
  have hcont : ((items.map (·.product_id)).contains p.id) = true := by
    simpa using hmemid
  have hpsel : p ∈ db.products.filter
      (fun q => (items.map (·.product_id)).contains q.id) :=
    List.mem_filter.mpr ⟨hp, hcont⟩
  have hsome : (List.find? (fun q => q.id == i.product_id)
      (db.products.filter (fun q => (items.map (·.product_id)).contains q.id))).isSome := by
    rw [List.find?_isSome]
    exact ⟨p, hpsel, by simp [hpid]⟩
  obtain ⟨q, hq⟩ := Option.isSome_iff_exists.mp hsome
  have hqid : q.id = i.product_id := by simpa using List.find?_some hq
  have hqmem : q ∈ db.products :=
    List.mem_of_mem_filter (List.mem_of_find?_eq_some hq)
  have hqp : q = p :=
    List.inj_on_of_nodup_map hpk hqmem hp (by rw [hqid, hpid])
  exact ⟨q, hq, by rw [hqp]; exact hstock⟩

/-- C1 counterexample: the claim quantifies over every valid item set
(non-empty, positive quantities), but an item set that references the same
product twice — each line individually in stock, product present — is
rejected by the handler: the SELECT returns one row per distinct id, so the
row-count check (products.length vs productIds.length) fails and the
request gets the unrelated products-not-found error. -/
theorem createOrder_duplicate_ids_rejected_cex :
    (∀ i ∈ [OrderItemReq.mk 1 1, OrderItemReq.mk 1 1], 0 < i.quantity ∧
      ∃ p ∈ ordersDbS1.products, p.id = i.product_id ∧ i.quantity ≤ p.stock) ∧
    createOrder ordersDbS1 7 [⟨1, 1⟩, ⟨1, 1⟩] none =
      (.badRequest "One or more products not found", ordersDbS1) := by
  decide

/-- C1 amended: for every valid item set with pairwise-distinct product ids
(non-empty, positive quantities, non-zero ids) against a table with unique
product ids, createOrder succeeds iff every referenced product exists with
stock at least the requested quantity; on success the persisted total is
the sum of the line subtotals, every line captures its product's unit price
and subtotal = unit price times quantity, the lines mirror the request, and
every product's stock is decremented by exactly the quantity the order
requested for it (zero for unreferenced products). -/
theorem createOrder_valid_distinct_spec (db : OrdersDb) (userId : Nat)
    (items : List OrderItemReq) (notes : Option String)
    (hpk : (db.products.map (·.id)).Nodup)
    (hne : items ≠ [])
    (hval : ∀ i ∈ items, 0 < i.quantity ∧ i.product_id ≠ 0)
    (hdist : (items.map (·.product_id)).Nodup) :
    ((createOrder db userId items notes).1.isCreated = true ↔
      ∀ i ∈ items, ∃ p ∈ db.products, p.id = i.product_id ∧ i.quantity ≤ p.stock) ∧
    (∀ order rows, (createOrder db userId items notes).1 = .created order rows →
      order.total = (rows.map (·.subtotal)).sum ∧
      (∀ r ∈ rows, ∃ p ∈ db.products, p.id = r.product_id ∧ r.unit_price = p.price ∧
        r.subtotal = p.price * r.quantity) ∧
      rows.map (fun r => (r.product_id, r.quantity)) = items.map OrderItemReq.pq ∧
      ((createOrder db userId items notes).2).orders = db.orders ++ [order] ∧
      ((createOrder db userId items notes).2).products = db.products.map (fun p =>
        { p with stock := p.stock - requestedQty (items.map OrderItemReq.pq) p.id })) := by
  have hisE : items.isEmpty = false := by
    cases items with
    | nil => exact absurd rfl hne
    | cons a l => rfl
  rcases createOrder_cases db userId items notes with
    ⟨hreason, hfail, _⟩ | ⟨pending, hbi, _, heq⟩
  · constructor
    · constructor
      · intro h
        rw [hfail] at h
        exact absurd h (by simp)
      · intro havail
        exfalso
        rcases hreason with hr | hr | hr | hr
        · rw [hisE] at hr
          exact absurd hr (by simp)
        · obtain ⟨e, he⟩ := hr
          rw [firstItemError_none items hval] at he
          exact absurd he (by simp)
        · refine hr (products_filter_length db.products _ hpk hdist ?_)
          intro x hx
          obtain ⟨i, hi, hix⟩ := List.mem_map.mp hx
          obtain ⟨p, hp, hpid, _⟩ := havail i hi
          exact ⟨p, hp, by rw [hpid, hix]⟩
        · obtain ⟨e, he⟩ := hr
          obtain ⟨pd, hok⟩ := buildItems_ok_of_availability db items hpk havail
          rw [hok] at he
          exact absurd he (by simp)
    · intro order rows hres
      exfalso
      rw [hres] at hfail
      exact absurd hfail (by simp [CreateOrderResult.isCreated])
  · have havail := buildItems_ok_availability db items pending hbi
    obtain ⟨hmap, _⟩ := buildItems_ok_spec _ items pending hbi
    constructor
    · rw [heq]
      simp only [CreateOrderResult.isCreated, true_iff]
      exact havail
    · intro order rows hres
      rw [heq] at hres
      injection hres with h1 h2
      subst h1
      subst h2
      refine ⟨?_, ?_, ?_, ?_, ?_⟩
      · rw [List.sum_eq_foldl, mkItemRows_subtotals]
      · intro r hr
        obtain ⟨x, hx, hrpid, hrqty, hruprice, hrsub⟩ :=
          mkItemRows_mem db.nextOrderId db.nextItemId pending r hr
        obtain ⟨p, hpsel, hpid, hxprice, hxsub, _⟩ :=
          (buildItems_ok_spec _ items pending hbi).2 x hx
        refine ⟨p, List.mem_of_mem_filter hpsel, by rw [hpid, hrpid], ?_, ?_⟩
        · rw [hruprice, hxprice]
        · rw [hrsub, hxsub, hrqty]
      · rw [mkItemRows_pq, hmap]
      · rw [heq]
      · rw [heq]
        simp only
        rw [decStocks_eq_map, hmap]

/-- C1 witness: the amended theorem applied to scenario 1 — product 1
(price 29.99, stock 10), one item of quantity 2 — plus the concrete
outcome: total 5998 cents (59.98), stock 8. -/
theorem createOrder_valid_distinct_spec_witness :
    (createOrder ordersDbS1 7 [⟨1, 2⟩] none).1.isCreated = true ∧
    createOrder ordersDbS1 7 [⟨1, 2⟩] none =
      (.created ⟨1, 7, 5998, .pending, none⟩ [⟨1, 1, 1, 2, 2999, 5998⟩],
       { products := [⟨1, "Widget", 2999, 8⟩],
         orders := [⟨1, 7, 5998, .pending, none⟩],
         order_items := [⟨1, 1, 1, 2, 2999, 5998⟩],
         nextOrderId := 2, nextItemId := 2 }) :=
  ⟨(createOrder_valid_distinct_spec ordersDbS1 7 [⟨1, 2⟩] none
      (by decide) (by decide) (by decide) (by decide)).1.mpr (by decide),
    by decide⟩

/-- C2: for any request containing an item whose product is missing or
whose quantity exceeds that product's stock, createOrder commits nothing:
the response is not 201 and the database — orders, order items and product
stocks — is exactly the pre-call state (all paths roll the transaction
back).  The insufficient-stock error names the offending product and both
quantities: in scenario 2 (product Widget, stock 1, requested 2) the
request fails with exactly the message naming Widget, available 1,
requested 2, and the state is unchanged. -/
theorem createOrder_invalid_atomic (db : OrdersDb) (userId : Nat)
    (items : List OrderItemReq) (notes : Option String)
    (hpk : (db.products.map (·.id)).Nodup)
    (hbad : ∃ i ∈ items, (∀ p ∈ db.products, p.id ≠ i.product_id) ∨
      ∃ p ∈ db.products, p.id = i.product_id ∧ p.stock < i.quantity) :
    (createOrder db userId items notes).1.isCreated = false ∧
    (createOrder db userId items notes).2 = db ∧
    createOrder ordersDbS2 7 [⟨1, 2⟩] none =
      (.badRequest (insufficientStockMsg "Widget" 1 2), ordersDbS2) := by
  rcases createOrder_cases db userId items notes with
    ⟨_, hfail, hunch⟩ | ⟨pending, hbi, _, _⟩
  · exact ⟨hfail, hunch, by decide⟩
  · exfalso
    have havail := buildItems_ok_availability db items pending hbi
    obtain ⟨i, hi, hmiss | hins⟩ := hbad
    · obtain ⟨p, hp, hpid, _⟩ := havail i hi
      exact hmiss p hp hpid
    · obtain ⟨p, hp, hpid, hstock⟩ := havail i hi
      obtain ⟨p2, hp2, hpid2, hlt⟩ := hins
      have : p = p2 :=
        List.inj_on_of_nodup_map hpk hp hp2 (by rw [hpid, hpid2])
      rw [this] at hstock
      exact absurd hlt (not_lt.mpr hstock)

/-- C2 witness: the theorem applied to scenario 2 — product 1 (Widget)
with stock 1 and a request for quantity 2. -/
theorem createOrder_invalid_atomic_witness :
    (ordersDbS2.products.map (·.id)).Nodup ∧
    (∃ i ∈ [OrderItemReq.mk 1 2], (∀ p ∈ ordersDbS2.products, p.id ≠ i.product_id) ∨
      ∃ p ∈ ordersDbS2.products, p.id = i.product_id ∧ p.stock < i.quantity) ∧
    (createOrder ordersDbS2 7 [⟨1, 2⟩] none).1.isCreated = false ∧
    (createOrder ordersDbS2 7 [⟨1, 2⟩] none).2 = ordersDbS2 :=
  ⟨by decide, by decide,
    (createOrder_invalid_atomic ordersDbS2 7 [⟨1, 2⟩] none (by decide) (by decide)).1,
    (createOrder_invalid_atomic ordersDbS2 7 [⟨1, 2⟩] none (by decide) (by decide)).2.1⟩

end Ecomm
